import Mathlib

/-!
Verification of the PDR AI sidecar service (`app/`): three model wrappers
(`Embedder`, `Reranker`, `EntityExtractor`) and the three FastAPI routes
(`/embed`, `/rerank`, `/extract-entities`).

Python strings are modelled as lists of characters (`Str`), scores as `ℚ`.
The three third-party inference models (sentence-transformers `encode`,
cross-encoder `predict`, transformers NER `pipeline`) are external black
boxes; each is represented by a per-item function, and the documented
batch contract (one output per input, in input order) is the mapping of
that function over the batch.
-/

namespace Sidecar

/-- A Python string: a finite sequence of characters. -/
abbrev Str := List Char

/-- Python `s.strip()`: remove leading and trailing whitespace. -/
def pyStrip (s : Str) : Str :=
  ((s.dropWhile Char.isWhitespace).reverse.dropWhile Char.isWhitespace).reverse

/-- Python `re.sub(r"^##", "", s)`: the anchored pattern matches at most once, at
position 0, so this removes one leading `##` when present. -/
def subLeadingHashes (s : Str) : Str :=
  if s.take 2 = ['#', '#'] then s.drop 2 else s

/-- Python `s.lower()` (restricted to the ASCII letters that appear in the claims). -/
def pyLower (s : Str) : Str := s.map Char.toLower

/-- Python `round(x, 4)`: round to 4 decimal places.  (Python rounds a binary float
with ties to even; on `ℚ` we round to the nearest multiple of `1/10000`,
which agrees everywhere the claims evaluate it.) -/
def round4 (q : ℚ) : ℚ := (round (q * 10000) : ℤ) / 10000

/-- One raw span of the NER pipeline output: `{word, entity_group, score}`. -/
structure RawSpan where
  word : Str
  entity_group : Str
  score : ℚ
deriving DecidableEq

/-- One cleaned entity, as built in `EntityExtractor.extract`. -/
structure Entity where
  text : Str
  label : Str
  score : ℚ
deriving DecidableEq

/-- One per-chunk result `{text, entities}` of `EntityExtractor.extract`. -/
structure ChunkEntities where
  text : Str
  entities : List Entity
deriving DecidableEq

/-- The cleaning applied to a raw span's word in `EntityExtractor.extract`:
`word.strip()`, then `re.sub(r"^##", "", word).strip()`. -/
def cleanWord (w : Str) : Str := pyStrip (subLeadingHashes (pyStrip w))

/-- The de-duplication key `f"{word.lower()}|{entity_group}"`. -/
def spanKey (word label : Str) : Str := pyLower word ++ '|' :: label

/-- The key of an already-built entity (its `text` field holds the cleaned
word). -/
def entityKey (e : Entity) : Str := spanKey e.text e.label

/-- The `for ent in raw` loop body of `EntityExtractor.extract`: clean each
word, drop empty/short words, de-duplicate on `spanKey` via the `seen` set
(modelled as the list of keys added so far), and collect the entities. -/
def dedupEntities : List RawSpan → List Str → List Entity
  | [], _ => []
  | ent :: rest, seen =>
    let word := cleanWord ent.word
    if word = [] ∨ word.length < 2 then
      dedupEntities rest seen
    else
      let key := spanKey word ent.entity_group
      if key ∈ seen then
        dedupEntities rest seen
      else
        { text := word, label := ent.entity_group, score := round4 ent.score } ::
          dedupEntities rest (key :: seen)

/-- The transformers token-classification pipeline, a black box mapping a
text to its list of raw spans. -/
structure NerPipeline where
  run : Str → List RawSpan

/-- Class `EntityExtractor`: owns one loaded NER pipeline. -/
structure EntityExtractor where
  pipe : NerPipeline

/-- The per-chunk work of `EntityExtractor.extract`: truncate to 2048
characters, run the pipeline on the truncated text, clean and de-duplicate
the spans, echo the truncated text. -/
def processChunk (e : EntityExtractor) (text : Str) : ChunkEntities :=
  let truncated := text.take 2048
  let raw := e.pipe.run truncated
  { text := truncated, entities := dedupEntities raw [] }

/-- Method `EntityExtractor.extract`: one result per input chunk, in order. -/
def EntityExtractor.extract (e : EntityExtractor) (texts : List Str) :
    List ChunkEntities :=
  texts.map (processChunk e)

/-- The sentence-transformers model: a black box with a per-text encoding
and a fixed construction-time dimension; batch `encode` returns one vector
per input text, in input order. -/
structure SentenceTransformer where
  encodeOne : Str → List ℚ
  dim : ℕ

/-- Batch `model.encode(texts, ...)`. -/
def SentenceTransformer.encode (m : SentenceTransformer) (texts : List Str) :
    List (List ℚ) :=
  texts.map m.encodeOne

/-- Class `Embedder`: owns one loaded sentence-transformer; `self.dimension` is
read off the model at construction. -/
structure Embedder where
  model : SentenceTransformer

/-- Field `self.dimension = self.model.get_sentence_embedding_dimension()`. -/
def Embedder.dimension (e : Embedder) : ℕ := e.model.dim

/-- Method `Embedder.embed`: delegate to `model.encode`. -/
def Embedder.embed (e : Embedder) (texts : List Str) : List (List ℚ) :=
  e.model.encode texts

/-- The cross-encoder model: a black box scoring each (query, document)
pair independently; batch `predict` maps it over the pairs. -/
structure CrossEncoder where
  predictOne : Str × Str → ℚ

/-- Batch `model.predict(pairs, ...)`. -/
def CrossEncoder.predict (m : CrossEncoder) (pairs : List (Str × Str)) :
    List ℚ :=
  pairs.map m.predictOne

/-- Class `Reranker`: owns one loaded cross-encoder. -/
structure Reranker where
  model : CrossEncoder

/-- Method `Reranker.rerank`: short-circuit `if not documents: return []`, else
pair the query with each document and score the pairs. -/
def Reranker.rerank (r : Reranker) (query : Str) (documents : List Str) :
    List ℚ :=
  if documents.isEmpty then []
  else
    let pairs := documents.map (fun doc => (query, doc))
    r.model.predict pairs

/-- Pydantic `EmbedRequest`: `texts: list[str] = Field(..., min_length=1)`. -/
structure EmbedRequest where
  texts : List Str

/-- Pydantic `EmbedResponse`. -/
structure EmbedResponse where
  embeddings : List (List ℚ)
  dimension : ℕ
  count : ℕ
deriving DecidableEq

/-- The `/embed` handler body: embed, then package with the model dimension
and `count = len(vectors)`. -/
def embedHandler (e : Embedder) (req : EmbedRequest) : EmbedResponse :=
  let vectors := e.embed req.texts
  { embeddings := vectors, dimension := e.dimension, count := vectors.length }

/-- The `/embed` endpoint: pydantic validates the declared constraint
(`texts` has `min_length=1`) before the handler runs; a violation is a
validation error naming the field. -/
def embedEndpoint (e : Embedder) (req : EmbedRequest) :
    Except String EmbedResponse :=
  if req.texts.length < 1 then .error "texts"
  else .ok (embedHandler e req)

/-- Pydantic `RerankRequest`: `query` with `min_length=1`, `documents` with
`min_length=1`. -/
structure RerankRequest where
  query : Str
  documents : List Str

/-- Pydantic `RerankResponse`. -/
structure RerankResponse where
  scores : List ℚ
  count : ℕ
deriving DecidableEq

/-- The `/rerank` handler body. -/
def rerankHandler (r : Reranker) (req : RerankRequest) : RerankResponse :=
  let scores := r.rerank req.query req.documents
  { scores := scores, count := scores.length }

/-- The `/rerank` endpoint: pydantic validation of both declared
`min_length=1` constraints precedes the handler. -/
def rerankEndpoint (r : Reranker) (req : RerankRequest) :
    Except String RerankResponse :=
  if req.query.length < 1 then .error "query"
  else if req.documents.length < 1 then .error "documents"
  else .ok (rerankHandler r req)

/-- Pydantic `ExtractEntitiesRequest`: `chunks` with `min_length=1`. -/
structure ExtractEntitiesRequest where
  chunks : List Str

/-- Pydantic `ExtractEntitiesResponse`. -/
structure ExtractEntitiesResponse where
  results : List ChunkEntities
  total_entities : ℕ
deriving DecidableEq

/-- The `/extract-entities` handler body: rebuild each chunk result
unchanged and accumulate `total += len(entities)` over the loop. -/
def extractEntitiesHandler (e : EntityExtractor) (req : ExtractEntitiesRequest) :
    ExtractEntitiesResponse :=
  let raw := e.extract req.chunks
  { results := raw
    total_entities := raw.foldl (fun acc item => acc + item.entities.length) 0 }

/-- The `/extract-entities` endpoint: pydantic validation of the declared
`min_length=1` constraint precedes the handler. -/
def extractEntitiesEndpoint (e : EntityExtractor) (req : ExtractEntitiesRequest) :
    Except String ExtractEntitiesResponse :=
  if req.chunks.length < 1 then .error "chunks"
  else .ok (extractEntitiesHandler e req)


/-- A concrete NER pipeline used to instantiate hypotheses: one span with
whitespace around the word, so the cleaning path is exercised. -/
def pipe0 : NerPipeline := ⟨fun _ => [⟨[' ', 'A', 'b', ' '], ['X'], 0⟩]⟩

/-- A concrete `EntityExtractor` instance. -/
def extractor0 : EntityExtractor := ⟨pipe0⟩

/-- A concrete sentence-transformer of dimension 2. -/
def st0 : SentenceTransformer := ⟨fun _ => [0, 0], 2⟩

/-- A concrete `Embedder` instance. -/
def embedder0 : Embedder := ⟨st0⟩

/-- A concrete `Reranker` instance. -/
def reranker0 : Reranker := ⟨⟨fun _ => 0⟩⟩

/-- Helper: the `total += len(entities)` fold computes the sum of the
per-chunk entity counts. -/
theorem foldl_entity_count (l : List ChunkEntities) (n : ℕ) :
    l.foldl (fun acc item => acc + item.entities.length) n
      = n + (l.map (fun c => c.entities.length)).sum := by
  induction l generalizing n with
  | nil => simp
  | cons c l ih => simp [ih, Nat.add_assoc]

/-- Helper: every entity produced by the de-duplication loop has a key not
in the `seen` accumulator. -/
theorem dedup_key_not_seen {raw : List RawSpan} {seen : List Str} {ent : Entity}
    (h : ent ∈ dedupEntities raw seen) : entityKey ent ∉ seen := by
  induction raw generalizing seen with
  | nil => cases h
  | cons e rest ih =>
    simp only [dedupEntities] at h
    split at h
    · exact ih h
    · split at h
      · exact ih h
      · rename_i hlen hseen
        cases h with
        | head => exact hseen
        | tail _ h' =>
          have := ih h'
          intro hc
          exact this (List.mem_cons_of_mem _ hc)

/-- Helper: the entities produced by the de-duplication loop have pairwise
distinct keys. -/
theorem dedup_pairwise_keys (raw : List RawSpan) (seen : List Str) :
    (dedupEntities raw seen).Pairwise (fun a b => entityKey a ≠ entityKey b) := by
  induction raw generalizing seen with
  | nil => exact List.Pairwise.nil
  | cons e rest ih =>
    simp only [dedupEntities]
    split
    · exact ih seen
    · split
      · exact ih seen
      · refine List.Pairwise.cons ?_ (ih _)
        intro b hb
        have := dedup_key_not_seen hb
        intro hc
        exact this (by rw [← hc]; exact List.Mem.head _)

/-- Helper: every entity produced by the de-duplication loop comes from
some raw span, carries that span's cleaned word, label and rounded score,
and the cleaned word passed the length-2 noise filter. -/
theorem dedup_mem_src {raw : List RawSpan} {seen : List Str} {ent : Entity}
    (h : ent ∈ dedupEntities raw seen) :
    ∃ s ∈ raw, ent.text = cleanWord s.word ∧ ent.label = s.entity_group ∧
      ent.score = round4 s.score ∧ 2 ≤ (cleanWord s.word).length := by
  induction raw generalizing seen with
  | nil => cases h
  | cons e rest ih =>
    simp only [dedupEntities] at h
    split at h
    · obtain ⟨s, hs, hrest⟩ := ih h
      exact ⟨s, List.mem_cons_of_mem _ hs, hrest⟩
    · split at h
      · obtain ⟨s, hs, hrest⟩ := ih h
        exact ⟨s, List.mem_cons_of_mem _ hs, hrest⟩
      · rename_i hlen _
        cases h with
        | head =>
          refine ⟨e, List.Mem.head _, rfl, rfl, rfl, ?_⟩
          rcases Nat.lt_or_ge (cleanWord e.word).length 2 with hl | hl
          · exact absurd (Or.inr hl) hlen
          · exact hl
        | tail _ h' =>
          obtain ⟨s, hs, hrest⟩ := ih h'
          exact ⟨s, List.mem_cons_of_mem _ hs, hrest⟩

/-- Helper: a span whose cleaned word passes the noise filter and whose key
is neither in the accumulator nor produced by any earlier span contributes
its entity to the loop's output. -/
theorem dedup_keep_first (s : RawSpan) (post : List RawSpan) :
    ∀ (pre : List RawSpan) (seen : List Str),
    2 ≤ (cleanWord s.word).length →
    spanKey (cleanWord s.word) s.entity_group ∉ seen →
    (∀ t ∈ pre, (cleanWord t.word).length < 2 ∨
        spanKey (cleanWord t.word) t.entity_group ≠ spanKey (cleanWord s.word) s.entity_group) →
    Entity.mk (cleanWord s.word) s.entity_group (round4 s.score)
      ∈ dedupEntities (pre ++ s :: post) seen := by
  intro pre
  induction pre with
  | nil =>
    intro seen hlen hseen _
    simp only [List.nil_append, dedupEntities]
    rw [if_neg, if_neg hseen]
    · exact List.Mem.head _
    · rintro (hc | hc)
      · rw [hc] at hlen; cases hlen
      · exact absurd hlen (Nat.not_le_of_lt hc)
  | cons t pre ih =>
    intro seen hlen hseen hpre
    have ht := hpre t (List.Mem.head _)
    have hpre' : ∀ u ∈ pre, (cleanWord u.word).length < 2 ∨
        spanKey (cleanWord u.word) u.entity_group ≠ spanKey (cleanWord s.word) s.entity_group :=
      fun u hu => hpre u (List.mem_cons_of_mem _ hu)
    simp only [List.cons_append, dedupEntities]
    split
    · exact ih seen hlen hseen hpre'
    · rename_i hlent
      split
      · exact ih seen hlen hseen hpre'
      · refine List.Mem.tail _ (ih _ hlen ?_ hpre')
        intro hc
        rw [List.mem_cons] at hc
        rcases hc with hc | hc'
        · cases ht with
          | inl hshort => exact hlent (Or.inr hshort)
          | inr hne => exact hne hc.symm
        · exact hseen hc'

/-- C1: for every non-empty `texts` list, the `/embed` handler's `count`
equals the input length and the length of `embeddings`, the embeddings are
the per-text model vectors in input order, and the reported `dimension` is
the model's construction-time dimension. -/
theorem embed_response_invariants (e : Embedder) (req : EmbedRequest)
    (_hne : req.texts ≠ []) :
    (embedHandler e req).count = req.texts.length ∧
    (embedHandler e req).count = (embedHandler e req).embeddings.length ∧
    (embedHandler e req).embeddings = req.texts.map e.model.encodeOne ∧
    (embedHandler e req).dimension = e.model.dim := by
  refine ⟨?_, rfl, rfl, rfl⟩
  simp [embedHandler, Embedder.embed, SentenceTransformer.encode]

/-- C1 witness: the invariants hold on the concrete embedder at
`texts = ["hi"]`. -/
theorem embed_response_invariants_witness :
    ((⟨[['h', 'i']]⟩ : EmbedRequest).texts ≠ [] ∧
      (embedHandler embedder0 ⟨[['h', 'i']]⟩).count = (⟨[['h', 'i']]⟩ : EmbedRequest).texts.length ∧
      (embedHandler embedder0 ⟨[['h', 'i']]⟩).count = (embedHandler embedder0 ⟨[['h', 'i']]⟩).embeddings.length ∧
      (embedHandler embedder0 ⟨[['h', 'i']]⟩).embeddings = (⟨[['h', 'i']]⟩ : EmbedRequest).texts.map embedder0.model.encodeOne ∧
      (embedHandler embedder0 ⟨[['h', 'i']]⟩).dimension = embedder0.model.dim) :=
  ⟨by decide, embed_response_invariants embedder0 ⟨[['h', 'i']]⟩ (by decide)⟩

/-- C2: for every valid `/rerank` request, the scores are the per-pair
model scores of (query, document) in document order, lengths and `count`
agree with `documents`, the i-th score is the score of the i-th document,
and equal documents receive equal scores. -/
theorem rerank_pairing (r : Reranker) (req : RerankRequest)
    (_hq : req.query ≠ []) (hd : req.documents ≠ []) :
    (rerankHandler r req).scores
        = req.documents.map (fun doc => r.model.predictOne (req.query, doc)) ∧
    (rerankHandler r req).scores.length = req.documents.length ∧
    (rerankHandler r req).count = req.documents.length ∧
    (∀ i : ℕ, (rerankHandler r req).scores[i]?
        = (req.documents[i]?).map (fun doc => r.model.predictOne (req.query, doc))) ∧
    (∀ i j : ℕ, req.documents[i]? = req.documents[j]? →
        (rerankHandler r req).scores[i]? = (rerankHandler r req).scores[j]?) := by
  have hmain : (rerankHandler r req).scores
      = req.documents.map (fun doc => r.model.predictOne (req.query, doc)) := by
    simp only [rerankHandler, Reranker.rerank, CrossEncoder.predict]
    rw [if_neg (by simp [List.isEmpty_iff, hd])]
    rw [List.map_map]
    rfl
  refine ⟨hmain, by rw [hmain]; simp, ?_, ?_, ?_⟩
  · show (rerankHandler r req).scores.length = req.documents.length
    rw [hmain]; simp
  · intro i
    rw [hmain, List.getElem?_map]
  · intro i j hij
    rw [hmain, List.getElem?_map, List.getElem?_map, hij]

/-- C2 witness: the pairing invariants hold on the concrete reranker at
`query = "q"`, `documents = ["d"]`. -/
theorem rerank_pairing_witness :
    ((⟨['q'], [['d']]⟩ : RerankRequest).query ≠ [] ∧
      (⟨['q'], [['d']]⟩ : RerankRequest).documents ≠ []) ∧
    ((rerankHandler reranker0 ⟨['q'], [['d']]⟩).scores
        = (⟨['q'], [['d']]⟩ : RerankRequest).documents.map
            (fun doc => reranker0.model.predictOne ((⟨['q'], [['d']]⟩ : RerankRequest).query, doc)) ∧
      (rerankHandler reranker0 ⟨['q'], [['d']]⟩).scores.length
        = (⟨['q'], [['d']]⟩ : RerankRequest).documents.length ∧
      (rerankHandler reranker0 ⟨['q'], [['d']]⟩).count
        = (⟨['q'], [['d']]⟩ : RerankRequest).documents.length ∧
      (∀ i : ℕ, (rerankHandler reranker0 ⟨['q'], [['d']]⟩).scores[i]?
        = ((⟨['q'], [['d']]⟩ : RerankRequest).documents[i]?).map
            (fun doc => reranker0.model.predictOne ((⟨['q'], [['d']]⟩ : RerankRequest).query, doc))) ∧
      (∀ i j : ℕ, (⟨['q'], [['d']]⟩ : RerankRequest).documents[i]?
          = (⟨['q'], [['d']]⟩ : RerankRequest).documents[j]? →
        (rerankHandler reranker0 ⟨['q'], [['d']]⟩).scores[i]?
          = (rerankHandler reranker0 ⟨['q'], [['d']]⟩).scores[j]?)) :=
  ⟨⟨by decide, by decide⟩,
    rerank_pairing reranker0 ⟨['q'], [['d']]⟩ (by decide) (by decide)⟩

/-- C3 counterexample: in the raw output
`[("ab|cd", "EF"), ("ab", "cd|EF"), ("ab", "cd|EF")]` the last two spans
share the same (lower-cased cleaned text, label) pair, the pair is distinct
from the first span's pair and its cleaned text passes the noise filter,
yet no entity with that pair is kept — the first occurrence is dropped
because the first span's key collides with it. -/
theorem ner_first_occurrence_not_kept :
    ((dedupEntities [⟨['a', 'b', '|', 'c', 'd'], ['E', 'F'], 0⟩,
        ⟨['a', 'b'], ['c', 'd', '|', 'E', 'F'], 0⟩,
        ⟨['a', 'b'], ['c', 'd', '|', 'E', 'F'], 0⟩] []).map (fun e => (e.text, e.label)))
      = [(['a', 'b', '|', 'c', 'd'], ['E', 'F'])] ∧
    2 ≤ (cleanWord ['a', 'b']).length ∧
    (pyLower (cleanWord ['a', 'b']), (['c', 'd', '|', 'E', 'F'] : Str))
      ≠ (pyLower (cleanWord ['a', 'b', '|', 'c', 'd']), (['E', 'F'] : Str)) := by
  refine ⟨?_, by decide, by decide⟩
  decide

/-- C3 (amended): entities of one chunk are pairwise distinct on the
(lower-cased cleaned text, label) pair, and a span is kept whenever its
cleaned text has length ≥ 2 and no earlier span of the chunk produced the
same `lowered-text|label` key; all later spans with the same key (in
particular all later spans with the same pair) are dropped. -/
theorem ner_dedup_by_key (e : EntityExtractor) (texts : List Str)
    (r : ChunkEntities) (hr : r ∈ e.extract texts) :
    r.entities.Pairwise
      (fun a b => ¬(pyLower a.text = pyLower b.text ∧ a.label = b.label)) ∧
    (∀ pre s post, e.pipe.run r.text = pre ++ s :: post →
      2 ≤ (cleanWord s.word).length →
      (∀ t ∈ pre, (cleanWord t.word).length < 2 ∨
          spanKey (cleanWord t.word) t.entity_group ≠ spanKey (cleanWord s.word) s.entity_group) →
      Entity.mk (cleanWord s.word) s.entity_group (round4 s.score) ∈ r.entities) := by
  simp only [EntityExtractor.extract, List.mem_map] at hr
  obtain ⟨t, _ht, rfl⟩ := hr
  constructor
  · refine (dedup_pairwise_keys _ _).imp ?_
    intro a b hab ⟨h1, h2⟩
    exact hab (by simp only [entityKey, spanKey, h1, h2])
  · intro pre s post hrun hlen hpre
    show Entity.mk (cleanWord s.word) s.entity_group (round4 s.score)
      ∈ dedupEntities (e.pipe.run ((processChunk e t).text)) []
    rw [hrun]
    exact dedup_keep_first s post pre [] hlen (by simp) hpre

/-- C3 witness: the amended de-duplication properties hold on the concrete
extractor at `texts = ["hi"]`. -/
theorem ner_dedup_by_key_witness :
    (processChunk extractor0 ['h', 'i'] ∈ extractor0.extract [['h', 'i']]) ∧
    ((processChunk extractor0 ['h', 'i']).entities.Pairwise
        (fun a b => ¬(pyLower a.text = pyLower b.text ∧ a.label = b.label)) ∧
      (∀ pre s post,
        extractor0.pipe.run (processChunk extractor0 ['h', 'i']).text = pre ++ s :: post →
        2 ≤ (cleanWord s.word).length →
        (∀ t ∈ pre, (cleanWord t.word).length < 2 ∨
            spanKey (cleanWord t.word) t.entity_group ≠ spanKey (cleanWord s.word) s.entity_group) →
        Entity.mk (cleanWord s.word) s.entity_group (round4 s.score)
          ∈ (processChunk extractor0 ['h', 'i']).entities)) :=
  ⟨List.Mem.head _,
    ner_dedup_by_key extractor0 [['h', 'i']] (processChunk extractor0 ['h', 'i'])
      (List.Mem.head _)⟩

/-- C4: every chunk result of `EntityExtractor.extract` echoes the first
2048 characters of its input chunk, its entities are computed from the
pipeline run on that truncated text, and the echoed text has length at
most 2048. -/
theorem extract_truncates (e : EntityExtractor) (texts : List Str)
    (r : ChunkEntities) (hr : r ∈ e.extract texts) :
    (∃ t ∈ texts, r.text = t.take 2048 ∧
      r.entities = dedupEntities (e.pipe.run (t.take 2048)) []) ∧
    r.text.length ≤ 2048 := by
  simp only [EntityExtractor.extract, List.mem_map] at hr
  obtain ⟨t, ht, rfl⟩ := hr
  exact ⟨⟨t, ht, rfl, rfl⟩, by simp [processChunk]⟩

/-- C4 witness: the truncation property holds on the concrete extractor at
`texts = ["hi"]`. -/
theorem extract_truncates_witness :
    (processChunk extractor0 ['h', 'i'] ∈ extractor0.extract [['h', 'i']]) ∧
    ((∃ t ∈ [['h', 'i']], (processChunk extractor0 ['h', 'i']).text = t.take 2048 ∧
        (processChunk extractor0 ['h', 'i']).entities
          = dedupEntities (extractor0.pipe.run (t.take 2048)) []) ∧
      (processChunk extractor0 ['h', 'i']).text.length ≤ 2048) :=
  ⟨List.Mem.head _,
    extract_truncates extractor0 [['h', 'i']] (processChunk extractor0 ['h', 'i'])
      (List.Mem.head _)⟩

/-- C5: a `/rerank` request with empty `documents` is rejected by the
declared validation with an error naming a field; the rejection is the same
for every loaded model (the wrapper is never consulted); and an `ok`
response never carries an empty `scores` list. -/
theorem rerank_empty_docs_rejected :
    (∀ (r : Reranker) (q : Str), ∃ f : String, rerankEndpoint r ⟨q, []⟩ = .error f) ∧
    (∀ (r r' : Reranker) (q : Str), rerankEndpoint r ⟨q, []⟩ = rerankEndpoint r' ⟨q, []⟩) ∧
    (∀ (r : Reranker) (req : RerankRequest) (resp : RerankResponse),
      rerankEndpoint r req = .ok resp → resp.scores ≠ []) := by
  refine ⟨?_, ?_, ?_⟩
  · intro r q
    by_cases hq : q.length < 1
    · exact ⟨"query", by simp [rerankEndpoint, hq]⟩
    · exact ⟨"documents", by simp [rerankEndpoint, hq]⟩
  · intro r r' q
    by_cases hq : q.length < 1 <;> simp [rerankEndpoint, hq]
  · intro r req resp h
    simp only [rerankEndpoint] at h
    split at h
    · cases h
    · split at h
      · cases h
      · cases h
        rename_i hq hd
        have hdocs : req.documents ≠ [] := by
          intro h0
          rw [h0] at hd
          exact hd (by norm_num)
        simp only [rerankHandler, Reranker.rerank, CrossEncoder.predict]
        rw [if_neg (by simp [List.isEmpty_iff, hdocs])]
        intro hs
        exact hdocs (by simpa using hs)

/-- C5 witness: a concrete valid request gets an `ok` response whose scores
list is non-empty. -/
theorem rerank_empty_docs_rejected_witness :
    (rerankEndpoint reranker0 ⟨['q'], [['d']]⟩ = .ok ⟨[0], 1⟩) ∧
    (⟨[0], 1⟩ : RerankResponse).scores ≠ [] :=
  ⟨rfl, rerank_empty_docs_rejected.2.2 reranker0 ⟨['q'], [['d']]⟩ ⟨[0], 1⟩ rfl⟩

/-- C6: calling `Reranker.rerank` directly with an empty documents list
returns the empty score list, for every loaded model (the short-circuit
runs before the model is consulted, so the result is model-independent). -/
theorem rerank_empty_documents (r r' : Reranker) (q : Str) :
    r.rerank q [] = [] ∧ r.rerank q [] = Reranker.rerank r' q [] := by
  simp [Reranker.rerank]

/-- C7: for every valid `/extract-entities` request, the response has one
result per input chunk in input order, and `total_entities` is the sum of
the per-chunk entity counts. -/
theorem extract_entities_route (e : EntityExtractor) (req : ExtractEntitiesRequest)
    (_h : 1 ≤ req.chunks.length) :
    (extractEntitiesHandler e req).results.length = req.chunks.length ∧
    (∀ i : ℕ, (extractEntitiesHandler e req).results[i]?
        = (req.chunks[i]?).map (processChunk e)) ∧
    (extractEntitiesHandler e req).total_entities
        = ((extractEntitiesHandler e req).results.map (fun c => c.entities.length)).sum := by
  refine ⟨?_, ?_, ?_⟩
  · simp [extractEntitiesHandler, EntityExtractor.extract]
  · intro i
    simp [extractEntitiesHandler, EntityExtractor.extract, List.getElem?_map]
  · show (e.extract req.chunks).foldl (fun acc item => acc + item.entities.length) 0
        = ((e.extract req.chunks).map (fun c => c.entities.length)).sum
    rw [foldl_entity_count]
    simp

/-- C7 witness: the route invariants hold on the concrete extractor at
`chunks = ["hi"]`. -/
theorem extract_entities_route_witness :
    (1 ≤ (⟨[['h', 'i']]⟩ : ExtractEntitiesRequest).chunks.length) ∧
    ((extractEntitiesHandler extractor0 ⟨[['h', 'i']]⟩).results.length
        = (⟨[['h', 'i']]⟩ : ExtractEntitiesRequest).chunks.length ∧
      (∀ i : ℕ, (extractEntitiesHandler extractor0 ⟨[['h', 'i']]⟩).results[i]?
        = ((⟨[['h', 'i']]⟩ : ExtractEntitiesRequest).chunks[i]?).map (processChunk extractor0)) ∧
      (extractEntitiesHandler extractor0 ⟨[['h', 'i']]⟩).total_entities
        = ((extractEntitiesHandler extractor0 ⟨[['h', 'i']]⟩).results.map
            (fun c => c.entities.length)).sum) :=
  ⟨by decide, extract_entities_route extractor0 ⟨[['h', 'i']]⟩ (by decide)⟩

/-- C8: every entity of a chunk result carries the cleaned word (whitespace
stripped, one leading `##` removed, stripped again) of some raw span of the
pipeline output together with its label and rounded score, and its text has
length at least 2. -/
theorem ner_entity_cleaned_min_length (e : EntityExtractor) (texts : List Str)
    (r : ChunkEntities) (hr : r ∈ e.extract texts)
    (ent : Entity) (he : ent ∈ r.entities) :
    2 ≤ ent.text.length ∧
    ∃ s ∈ e.pipe.run r.text, ent.text = cleanWord s.word ∧
      ent.label = s.entity_group ∧ ent.score = round4 s.score := by
  simp only [EntityExtractor.extract, List.mem_map] at hr
  obtain ⟨t, _ht, rfl⟩ := hr
  obtain ⟨s, hs, h1, h2, h3, h4⟩ := dedup_mem_src he
  exact ⟨by rw [h1]; exact h4, s, hs, h1, h2, h3⟩

/-- C8 witness: on the concrete extractor the single produced entity is the
cleaned span word `Ab`, of length ≥ 2. -/
theorem ner_entity_cleaned_min_length_witness :
    (processChunk extractor0 ['h', 'i'] ∈ extractor0.extract [['h', 'i']]) ∧
    (Entity.mk ['A', 'b'] ['X'] (round4 0) ∈ (processChunk extractor0 ['h', 'i']).entities) ∧
    (2 ≤ (Entity.mk ['A', 'b'] ['X'] (round4 0)).text.length ∧
      ∃ s ∈ extractor0.pipe.run (processChunk extractor0 ['h', 'i']).text,
        (Entity.mk ['A', 'b'] ['X'] (round4 0)).text = cleanWord s.word ∧
        (Entity.mk ['A', 'b'] ['X'] (round4 0)).label = s.entity_group ∧
        (Entity.mk ['A', 'b'] ['X'] (round4 0)).score = round4 s.score) :=
  ⟨List.Mem.head _, List.Mem.head _,
    ner_entity_cleaned_min_length extractor0 [['h', 'i']]
      (processChunk extractor0 ['h', 'i']) (List.Mem.head _)
      (Entity.mk ['A', 'b'] ['X'] (round4 0)) (List.Mem.head _)⟩

/-- C9 counterexample: the request `texts = [""]` passes the declared
validation (which constrains only the list length) and the handler runs,
returning the embedder's vector for the empty string — it is not rejected. -/
theorem embed_empty_string_accepted :
    embedEndpoint embedder0 ⟨[[]]⟩ = .ok ⟨[[0, 0]], 2, 1⟩ := rfl

/-- C9 (amended): a request whose `texts` list contains an empty string is
accepted by the `/embed` validation (only the list itself must be
non-empty) and the embedder is invoked on the texts unchanged. -/
theorem embed_empty_element_passes (e : Embedder) (req : EmbedRequest)
    (hmem : [] ∈ req.texts) :
    embedEndpoint e req = .ok (embedHandler e req) ∧
    (embedHandler e req).embeddings = req.texts.map e.model.encodeOne := by
  have hne : req.texts ≠ [] := by
    intro h0; rw [h0] at hmem; cases hmem
  constructor
  · simp only [embedEndpoint]
    rw [if_neg]
    simpa [Nat.lt_iff_add_one_le, Nat.le_zero, List.length_eq_zero] using hne
  · rfl

/-- C9 witness: the request `texts = [""]` is accepted and embedded. -/
theorem embed_empty_element_passes_witness :
    ([] ∈ (⟨[[]]⟩ : EmbedRequest).texts) ∧
    (embedEndpoint embedder0 ⟨[[]]⟩ = .ok (embedHandler embedder0 ⟨[[]]⟩) ∧
      (embedHandler embedder0 ⟨[[]]⟩).embeddings
        = (⟨[[]]⟩ : EmbedRequest).texts.map embedder0.model.encodeOne) :=
  ⟨List.Mem.head _, embed_empty_element_passes embedder0 ⟨[[]]⟩ (List.Mem.head _)⟩

/-- C10 counterexample: the claim's example span `("a", "b|C")` is removed
by the 2-character noise filter — it yields no entity even when it is the
only span, with no duplicate anywhere — so it is not dropped as a
duplicate. -/
theorem ner_example_dropped_by_noise_filter :
    dedupEntities [⟨['a'], ['b', '|', 'C'], 0⟩] [] = [] ∧
    (cleanWord ['a']).length < 2 ∧
    (dedupEntities [⟨['a', '|', 'b'], ['C'], 0⟩, ⟨['a'], ['b', '|', 'C'], 0⟩] []).map
        (fun e => (e.text, e.label)) = [(['a', '|', 'b'], ['C'])] := by
  refine ⟨by decide, by decide, by decide⟩

/-- C10 (amended): the key `lowered-text|label` is not injective on
(text, label) pairs — the spans `("ab|cd", "EF")` and `("ab", "cd|EF")`
have distinct pairs and equal keys, the later one passes the noise filter,
and it is nevertheless dropped as a duplicate. -/
theorem ner_key_not_injective :
    (pyLower (cleanWord ['a', 'b', '|', 'c', 'd']), (['E', 'F'] : Str))
      ≠ (pyLower (cleanWord ['a', 'b']), (['c', 'd', '|', 'E', 'F'] : Str)) ∧
    spanKey (cleanWord ['a', 'b', '|', 'c', 'd']) ['E', 'F']
      = spanKey (cleanWord ['a', 'b']) ['c', 'd', '|', 'E', 'F'] ∧
    2 ≤ (cleanWord ['a', 'b']).length ∧
    (dedupEntities [⟨['a', 'b', '|', 'c', 'd'], ['E', 'F'], 0⟩,
        ⟨['a', 'b'], ['c', 'd', '|', 'E', 'F'], 0⟩] []).map (fun e => (e.text, e.label))
      = [(['a', 'b', '|', 'c', 'd'], ['E', 'F'])] := by
  refine ⟨by decide, by decide, by decide, by decide⟩

end Sidecar
